import Mathlib

/-!
Verification development for the Derivio option-pricing dashboard
(`streamlit_app.py`).

The repository's single source file is the Streamlit UI.  It imports the
pricing models (`BlackScholesModel`, `MonteCarloPricing`, `BinomialTreeModel`)
and the market-data helper `Ticker` from an `option_pricing` module that is
not part of the source tree; those are modelled here from the specification
(their doc comments say so explicitly).  Everything else — the cache wrappers,
the widget ranges, the percent divisions, the date arithmetic, and the three
Calculate-mode button blocks — is translated directly from
`src/streamlit_app.py`.

Python floats are modelled as real numbers, Python ints as `ℕ`/`ℤ`, pandas
DataFrames of OHLCV history as lists of rows, and the random draws consumed
by the Monte Carlo simulator as an explicit input stream.
-/

namespace Derivio

/-! ## Market data -/

/-- One row of the OHLCV historical-price series returned by the market-data
provider (spec §6: `get_historical_data(ticker) -> time-ordered OHLCV series`). -/
structure OHLCVRow where
  opn : ℝ
  high : ℝ
  low : ℝ
  close : ℝ
  volume : ℝ

/-- A historical price series: a time-ordered list of OHLCV rows (the model of
a pandas DataFrame; `[]` models an empty frame, for which `data.empty` holds). -/
abbrev HistData := List OHLCVRow

/-- Column selection `row[field]` on one OHLCV row. -/
def OHLCVRow.field (row : OHLCVRow) : String → ℝ
  | "Open" => row.opn
  | "High" => row.high
  | "Low" => row.low
  | "Close" => row.close
  | "Volume" => row.volume
  | _ => 0

namespace Ticker

/-- Modelled from the spec: `get_last_price(series, field) -> float` — the most
recent (last) value of the requested column of the series.  `Ticker` lives in
the `option_pricing` module, which is absent from the source tree. -/
def get_last_price (data : HistData) (fld : String) : ℝ :=
  match data.getLast? with
  | some row => row.field fld
  | none => 0

end Ticker

/-- `get_historical_data` (src lines 18–25): calls the provider inside
`try`/`except` and returns `None` on any provider error.  The provider call
itself is modelled as an `Except` input (spec §6: the provider either returns
a series or raises `DataUnavailableError`). -/
def get_historical_data (providerResult : Except String HistData) : Option HistData :=
  match providerResult with
  | Except.ok data => some data
  | Except.error _ => none

/-- `get_current_price` (src lines 27–34): fetches a one-day history and
returns `data[Close].iloc[-1]`, or `None` when the provider raises or the
frame is empty (in which case `.iloc[-1]` raises and the `except` returns
`None`). -/
def get_current_price (providerResult : Except String HistData) : Option ℝ :=
  match providerResult with
  | Except.error _ => none
  | Except.ok data =>
    match data.getLast? with
    | some row => some (row.field "Close")
    | none => none

/-! ## The spec's option-type enumeration

The specification (§3) postulates a closed two-variant enumeration
`OptionType = {Call, Put}`; §9 records that the source instead dispatches on
the string labels below.  The enumeration is defined here from the spec's
words so that the dispatch actually used by the code can be compared with it. -/

/-- The spec's `OptionType`: closed enumeration `{Call, Put}` (§3). -/
inductive OptionType where
  | Call
  | Put
  deriving DecidableEq

/-- The string label each call site of `calculate_option_price` uses for a
variant (src lines 308–309, 424–425, 537–538). -/
def OptionType.toLabel : OptionType → String
  | .Call => "Call Option"
  | .Put => "Put Option"

/-- The option-type arguments appearing at the `calculate_option_price` call
sites, in source order (src lines 308–309, 424–425, 537–538: each of the three
branches calls with `'Call Option'` then `'Put Option'`). -/
def calculateOptionPriceCallSiteLabels : List String :=
  ["Call Option", "Put Option"]

/-! ## Shared derived quantities -/

/-- Time to maturity in years, `T = days_to_maturity / 365` (spec §3). -/
noncomputable def yearsFrom (days : ℤ) : ℝ :=
  (days : ℝ) / 365

/-- Standard normal cumulative distribution function `N` (spec §4.1). -/
noncomputable def stdNormalCDF (x : ℝ) : ℝ :=
  ((ProbabilityTheory.gaussianReal 0 1) (Set.Iic x)).toReal

/-- The spec's construction/pricing failure taxonomy (§7): `InvalidParameter`
(domain violation on S0, K, T, σ, raised at construction) and
`InvalidLatticeParameters` (derived risk-neutral probability outside [0,1]). -/
inductive PricingError where
  | invalidParameter
  | invalidLatticeParameters

/-- Modelled from the spec: the construction-time domain check shared by all
three models (§3, §4.1, §7, §8) — construction fails with `InvalidParameter`
if σ < 0, T ≤ 0, S0 ≤ 0, or K ≤ 0; on valid inputs evaluation is total
(validation happens at construction, never at evaluation time). -/
def invalidParams (spot strike : ℝ) (days : ℤ) (sigma : ℝ) : Prop :=
  sigma < 0 ∨ yearsFrom days ≤ 0 ∨ spot ≤ 0 ∨ strike ≤ 0

noncomputable instance (spot strike : ℝ) (days : ℤ) (sigma : ℝ) :
    Decidable (invalidParams spot strike days sigma) := by
  unfold invalidParams
  infer_instance

/-! ## BlackScholesModel

Modelled from the spec (§4.1): the class is constructed from
`(spot, strike, days_to_maturity, risk_free_rate, volatility)` — the argument
order used at src line 307 — and prices via the closed-form formula, with the
σ = 0 / T = 0 degenerate case returning the discounted intrinsic value.
Invalid domains are rejected at construction (`make`), so a constructed
instance prices without further checks (§7). -/

structure BlackScholesModel where
  spot_price : ℝ
  strike_price : ℝ
  days_to_maturity : ℤ
  risk_free_rate : ℝ
  volatility : ℝ

namespace BlackScholesModel

/-- Modelled from the spec: construction with validation — fails with
`InvalidParameter` on a domain violation (§4.1, §7), otherwise returns the
instance holding the five validated scalars. -/
noncomputable def make (spot_price strike_price : ℝ) (days_to_maturity : ℤ)
    (risk_free_rate volatility : ℝ) :
    Except PricingError BlackScholesModel :=
  if invalidParams spot_price strike_price days_to_maturity volatility then
    Except.error PricingError.invalidParameter
  else
    Except.ok ⟨spot_price, strike_price, days_to_maturity, risk_free_rate, volatility⟩

/-- Modelled from the spec: the Black-Scholes call price (§4.1), with the
degenerate σ = 0 / T = 0 case handled analytically. -/
noncomputable def callPrice (m : BlackScholesModel) : ℝ :=
  let T := yearsFrom m.days_to_maturity
  if m.volatility = 0 ∨ T = 0 then
    max (m.spot_price - m.strike_price * Real.exp (-(m.risk_free_rate * T))) 0
  else
    let d1 := (Real.log (m.spot_price / m.strike_price)
        + (m.risk_free_rate + m.volatility ^ 2 / 2) * T) / (m.volatility * Real.sqrt T)
    let d2 := d1 - m.volatility * Real.sqrt T
    m.spot_price * stdNormalCDF d1
      - m.strike_price * Real.exp (-(m.risk_free_rate * T)) * stdNormalCDF d2

/-- Modelled from the spec: the Black-Scholes put price (§4.1). -/
noncomputable def putPrice (m : BlackScholesModel) : ℝ :=
  let T := yearsFrom m.days_to_maturity
  if m.volatility = 0 ∨ T = 0 then
    max (m.strike_price * Real.exp (-(m.risk_free_rate * T)) - m.spot_price) 0
  else
    let d1 := (Real.log (m.spot_price / m.strike_price)
        + (m.risk_free_rate + m.volatility ^ 2 / 2) * T) / (m.volatility * Real.sqrt T)
    let d2 := d1 - m.volatility * Real.sqrt T
    m.strike_price * Real.exp (-(m.risk_free_rate * T)) * stdNormalCDF (-d2)
      - m.spot_price * stdNormalCDF (-d1)

/-- Modelled from the spec: `calculate_option_price` dispatches on the string
labels `'Call Option'` / `'Put Option'` (spec §9) and yields no price for any
other string. -/
noncomputable def calculate_option_price (m : BlackScholesModel)
    (option_type : String) : Option ℝ :=
  if option_type = "Call Option" then some m.callPrice
  else if option_type = "Put Option" then some m.putPrice
  else none

end BlackScholesModel

/-! ## MonteCarloPricing

Modelled from the spec (§4.2): constructed from
`(spot, strike, days_to_maturity, risk_free_rate, volatility, number_of_simulations)`
(the argument order of src line 421), with a mutable simulation-result slot
that is empty until `simulate_prices` runs; pricing before simulation fails
with `SimulationNotRun`.  Invalid domains are rejected at construction
(`make`, §3/§7), so `simulate_prices` only ever runs on validated instances.
The normal draws are an explicit input stream. -/

structure MonteCarloPricing where
  spot_price : ℝ
  strike_price : ℝ
  days_to_maturity : ℤ
  risk_free_rate : ℝ
  volatility : ℝ
  number_of_simulations : ℕ
  simulation_results : Option (List ℝ)

/-- Modelled from the spec: terminal price of one GBM path started at `S0`,
stepping `S ↦ S·exp((r − σ²/2)Δt + σ√Δt·Z)` over the path's draws (§4.2). -/
noncomputable def gbmTerminal (S0 r sigma dt : ℝ) (zs : List ℝ) : ℝ :=
  S0 * Real.exp ((zs.map (fun z => (r - sigma ^ 2 / 2) * dt + sigma * Real.sqrt dt * z)).sum)

/-- Result of a Monte Carlo `calculate_option_price` call: the spec's
`SimulationNotRun` failure, an unrecognized string label, or a price. -/
inductive PriceOutcome where
  | simulationNotRun
  | unknownType
  | ok (price : ℝ)

namespace MonteCarloPricing

/-- Modelled from the spec: construction with validation — fails with
`InvalidParameter` on a domain violation (§3, §7), otherwise returns the
instance with an empty simulation slot. -/
noncomputable def make (spot_price strike_price : ℝ) (days_to_maturity : ℤ)
    (risk_free_rate volatility : ℝ) (number_of_simulations : ℕ) :
    Except PricingError MonteCarloPricing :=
  if invalidParams spot_price strike_price days_to_maturity volatility then
    Except.error PricingError.invalidParameter
  else
    Except.ok ⟨spot_price, strike_price, days_to_maturity, risk_free_rate,
      volatility, number_of_simulations, none⟩

/-- Number of time steps: one per day of maturity (spec §4.2). -/
def steps (m : MonteCarloPricing) : ℕ :=
  m.days_to_maturity.toNat

/-- Modelled from the spec: `simulate_prices()` generates
`number_of_simulations` independent GBM paths from the supplied normal draws
and stores their terminal prices, overwriting any previous result (§4.2, §3). -/
noncomputable def simulate_prices (m : MonteCarloPricing)
    (draws : List (List ℝ)) : MonteCarloPricing :=
  let T := yearsFrom m.days_to_maturity
  let dt := T / m.steps
  let terminals := (List.range m.number_of_simulations).map
    (fun i => gbmTerminal m.spot_price m.risk_free_rate m.volatility dt
      ((draws.getD i []).take m.steps))
  { m with simulation_results := some terminals }

/-- Modelled from the spec: the discounted sample mean
`e^(−rT) · mean(payoffs)` (§4.2). -/
noncomputable def discountedMean (m : MonteCarloPricing) (payoffs : List ℝ) : ℝ :=
  Real.exp (-(m.risk_free_rate * yearsFrom m.days_to_maturity))
    * (payoffs.sum / payoffs.length)

/-- Modelled from the spec: string-label dispatch (§9); fails with
`SimulationNotRun` when no simulation result is stored (§4.2, §7). -/
noncomputable def calculate_option_price (m : MonteCarloPricing)
    (option_type : String) : PriceOutcome :=
  if option_type = "Call Option" then
    match m.simulation_results with
    | some terminals =>
        .ok (m.discountedMean (terminals.map (fun sT => max (sT - m.strike_price) 0)))
    | none => .simulationNotRun
  else if option_type = "Put Option" then
    match m.simulation_results with
    | some terminals =>
        .ok (m.discountedMean (terminals.map (fun sT => max (m.strike_price - sT) 0)))
    | none => .simulationNotRun
  else .unknownType

end MonteCarloPricing

/-! ## BinomialTreeModel

Modelled from the spec (§4.3): constructed from
`(spot, strike, days_to_maturity, risk_free_rate, volatility, number_of_time_steps)`
(the argument order of src line 536) and priced by backward induction over a
rolling vector.  Construction (`make`) rejects invalid domains with
`InvalidParameter` (§3, §7) and a derived risk-neutral probability outside
[0,1] with `InvalidLatticeParameters` (§4.3). -/

structure BinomialTreeModel where
  spot_price : ℝ
  strike_price : ℝ
  days_to_maturity : ℤ
  risk_free_rate : ℝ
  volatility : ℝ
  number_of_time_steps : ℕ

/-- One backward-induction sweep: each node value becomes
`e^(−r·dt)·(p·V_up + (1−p)·V_down)` (§4.3). -/
noncomputable def binomialStep (disc p : ℝ) (v : List ℝ) : List ℝ :=
  List.zipWith (fun vDown vUp => disc * (p * vUp + (1 - p) * vDown)) v v.tail

namespace BinomialTreeModel

/-- Lattice time step `dt = T/n` (§4.3). -/
noncomputable def dt (m : BinomialTreeModel) : ℝ :=
  yearsFrom m.days_to_maturity / m.number_of_time_steps

/-- Up factor `u = e^(σ√dt)` (§4.3). -/
noncomputable def upFactor (m : BinomialTreeModel) : ℝ :=
  Real.exp (m.volatility * Real.sqrt m.dt)

/-- Down factor `d = 1/u` (§4.3). -/
noncomputable def downFactor (m : BinomialTreeModel) : ℝ :=
  1 / m.upFactor

/-- Risk-neutral probability `p = (e^(r·dt) − d)/(u − d)` (§4.3). -/
noncomputable def riskNeutralP (m : BinomialTreeModel) : ℝ :=
  (Real.exp (m.risk_free_rate * m.dt) - m.downFactor) / (m.upFactor - m.downFactor)

/-- Modelled from the spec: construction with validation — fails with
`InvalidParameter` on a domain violation (§3, §7) and with
`InvalidLatticeParameters` when the derived risk-neutral probability falls
outside [0,1] (§4.3); all of the lattice's derived quantities depend only on
the constructor arguments, so the check happens before any price is
produced. -/
noncomputable def make (spot_price strike_price : ℝ) (days_to_maturity : ℤ)
    (risk_free_rate volatility : ℝ) (number_of_time_steps : ℕ) :
    Except PricingError BinomialTreeModel :=
  if invalidParams spot_price strike_price days_to_maturity volatility then
    Except.error PricingError.invalidParameter
  else if (⟨spot_price, strike_price, days_to_maturity, risk_free_rate,
      volatility, number_of_time_steps⟩ : BinomialTreeModel).riskNeutralP < 0 ∨
      1 < (⟨spot_price, strike_price, days_to_maturity, risk_free_rate,
      volatility, number_of_time_steps⟩ : BinomialTreeModel).riskNeutralP then
    Except.error PricingError.invalidLatticeParameters
  else
    Except.ok ⟨spot_price, strike_price, days_to_maturity, risk_free_rate,
      volatility, number_of_time_steps⟩

/-- Modelled from the spec: backward-induction price for an arbitrary terminal
payoff over the lattice quantities above (§4.3); total on a constructed
instance, whose parameters `make` has already validated. -/
noncomputable def priceByInduction (m : BinomialTreeModel) (payoff : ℝ → ℝ) : ℝ :=
  let n := m.number_of_time_steps
  let u := m.upFactor
  let d := m.downFactor
  let p := m.riskNeutralP
  let disc := Real.exp (-(m.risk_free_rate * m.dt))
  let terminal := (List.range (n + 1)).map
      (fun j => payoff (m.spot_price * u ^ j * d ^ (n - j)))
  ((binomialStep disc p)^[n] terminal).headD 0

/-- Modelled from the spec: string-label dispatch (§9) over the
backward-induction pricer with the vanilla call / put terminal payoffs. -/
noncomputable def calculate_option_price (m : BinomialTreeModel)
    (option_type : String) : Option ℝ :=
  if option_type = "Call Option" then
    some (m.priceByInduction (fun sT => max (sT - m.strike_price) 0))
  else if option_type = "Put Option" then
    some (m.priceByInduction (fun sT => max (m.strike_price - sT) 0))
  else none

end BinomialTreeModel

/-! ## Widget admissibility

`st.slider(label, min, max, default)` with integer endpoints only ever returns
an integer in `[min, max]`; `st.date_input(label, min_value, value)` only ever
returns a date on or after `min_value`.  Dates are modelled as epoch-day
counts. -/

/-- The set of values an integer `st.slider(label, lo, hi, default)` can
return: any integer within the endpoints. -/
def sliderAdmissible (lo hi v : ℕ) : Prop :=
  lo ≤ v ∧ v ≤ hi

instance (lo hi v : ℕ) : Decidable (sliderAdmissible lo hi v) := by
  unfold sliderAdmissible; infer_instance

/-- The exercise dates the UI allows (src lines 292, 403, 518):
`st.date_input` with `min_value = datetime.today() + timedelta(days=1)`, so
any selected date is at least one day after today. -/
def exerciseDateAdmissible (today selected : ℤ) : Prop :=
  today + 1 ≤ selected

instance (today selected : ℤ) : Decidable (exerciseDateAdmissible today selected) := by
  unfold exerciseDateAdmissible; infer_instance

/-- `days_to_maturity = (exercise_date - datetime.now().date()).days`
(src lines 305, 419, 534). -/
def days_to_maturity (today selected : ℤ) : ℤ :=
  selected - today

/-! ## The Calculate-mode button blocks

Each branch's `if st.button(...)` block (src lines 296–352, 410–468, 525–581)
is translated as a function from the fetched data and the widget values to an
outcome: the fetch-failure error message (src lines 350, 466, 579), the
`except`-clause error (src lines 351–352, 467–468, 580–581), or the
constructed model together with the two displayed prices. -/

/-- Result of one Calculate-mode run: the data-fetch error path, the
exception path, or the constructed model with its displayed call/put prices. -/
inductive RunOutcome (M : Type) where
  | fetchError
  | calcError
  | priced (model : M) (callPrice putPrice : ℝ)

/-- The model constructed by a run, when one was. -/
def RunOutcome.model? {M : Type} : RunOutcome M → Option M
  | .priced m _ _ => some m
  | _ => none

/-- The pair of prices displayed by a run, when any were. -/
def RunOutcome.prices? {M : Type} : RunOutcome M → Option (ℝ × ℝ)
  | .priced _ c p => some (c, p)
  | _ => none

/-- The Black-Scholes branch button block (src lines 296–352): fetch, guard
`data is not None and not data.empty`, take the last close, divide the
percentages by 100, derive `days_to_maturity`, construct the model (a
construction-time `InvalidParameter` lands in the `except` clause of src
lines 351–352), price the call then the put. -/
noncomputable def bsCalculateRun (providerResult : Except String HistData)
    (strike_price : ℝ) (risk_free_rate_pct sigma_pct : ℕ)
    (today exercise_date : ℤ) : RunOutcome BlackScholesModel :=
  match get_historical_data providerResult with
  | none => .fetchError
  | some data =>
    if data.isEmpty then .fetchError
    else
      let spot_price := Ticker.get_last_price data "Close"
      let risk_free_rate := (risk_free_rate_pct : ℝ) / 100
      let sigma := (sigma_pct : ℝ) / 100
      let dtm := days_to_maturity today exercise_date
      match BlackScholesModel.make spot_price strike_price dtm risk_free_rate sigma with
      | Except.error _ => .calcError
      | Except.ok BSM =>
        match BSM.calculate_option_price "Call Option",
            BSM.calculate_option_price "Put Option" with
        | some c, some p => .priced BSM c p
        | _, _ => .calcError

/-- The Monte Carlo branch button block (src lines 410–468): as for
Black-Scholes, but constructing `MonteCarloPricing` with the simulation-count
slider value (a construction-time `InvalidParameter` lands in the `except`
clause of src lines 467–468), running `simulate_prices()` once, then pricing
call and put. -/
noncomputable def mcCalculateRun (providerResult : Except String HistData)
    (strike_price : ℝ) (risk_free_rate_pct sigma_pct : ℕ)
    (today exercise_date : ℤ) (number_of_simulations : ℕ)
    (draws : List (List ℝ)) : RunOutcome MonteCarloPricing :=
  match get_historical_data providerResult with
  | none => .fetchError
  | some data =>
    if data.isEmpty then .fetchError
    else
      let spot_price := Ticker.get_last_price data "Close"
      let risk_free_rate := (risk_free_rate_pct : ℝ) / 100
      let sigma := (sigma_pct : ℝ) / 100
      let dtm := days_to_maturity today exercise_date
      match MonteCarloPricing.make spot_price strike_price dtm risk_free_rate
          sigma number_of_simulations with
      | Except.error _ => .calcError
      | Except.ok MC0 =>
        let MC := MC0.simulate_prices draws
        match MC.calculate_option_price "Call Option",
            MC.calculate_option_price "Put Option" with
        | .ok c, .ok p => .priced MC c p
        | _, _ => .calcError

/-- The binomial branch button block (src lines 525–581): as for
Black-Scholes, but constructing `BinomialTreeModel` with the time-step slider
value (a construction-time `InvalidParameter` or `InvalidLatticeParameters`
lands in the `except` clause of src lines 580–581). -/
noncomputable def binomialCalculateRun (providerResult : Except String HistData)
    (strike_price : ℝ) (risk_free_rate_pct sigma_pct : ℕ)
    (today exercise_date : ℤ) (number_of_time_steps : ℕ) :
    RunOutcome BinomialTreeModel :=
  match get_historical_data providerResult with
  | none => .fetchError
  | some data =>
    if data.isEmpty then .fetchError
    else
      let spot_price := Ticker.get_last_price data "Close"
      let risk_free_rate := (risk_free_rate_pct : ℝ) / 100
      let sigma := (sigma_pct : ℝ) / 100
      let dtm := days_to_maturity today exercise_date
      match BinomialTreeModel.make spot_price strike_price dtm risk_free_rate
          sigma number_of_time_steps with
      | Except.error _ => .calcError
      | Except.ok BOPM =>
        match BOPM.calculate_option_price "Call Option",
            BOPM.calculate_option_price "Put Option" with
        | some c, some p => .priced BOPM c p
        | _, _ => .calcError

/-- The whole Black-Scholes branch page (src lines 247–352): the displayed
current price (src lines 266–269, from the independent one-day
`get_current_price` query) alongside the pricing run, which reads only the
historical series — the button block never references `current_price`. -/
noncomputable def bsCalculatePage (current_price : Option ℝ)
    (providerResult : Except String HistData) (strike_price : ℝ)
    (risk_free_rate_pct sigma_pct : ℕ) (today exercise_date : ℤ) :
    Option ℝ × RunOutcome BlackScholesModel :=
  (current_price,
   bsCalculateRun providerResult strike_price risk_free_rate_pct sigma_pct
     today exercise_date)

/-! ## The `st.cache_data` memoization boundary

`get_historical_data` and `get_current_price` are wrapped in
`@st.cache_data` (src lines 18, 27): within a session the first call for a
ticker queries the provider and stores the result; later calls with the same
ticker return the stored result without querying.  The provider may answer
differently at different times, so it is modelled as a function of a call
counter as well as the ticker. -/

/-- Per-session cache state: stored answers plus the log of provider queries
actually issued. -/
structure CacheState (α : Type) where
  entries : List (String × α)
  providerCalls : List String

/-- Association-list lookup by ticker symbol. -/
def lookupTicker {α : Type} (t : String) : List (String × α) → Option α
  | [] => none
  | (k, v) :: rest => if k = t then some v else lookupTicker t rest

/-- One call through an `st.cache_data`-wrapped function: on a hit return the
stored value, on a miss query the provider (at the current call counter),
store the answer and log the query. -/
def cachedFetch {α : Type} (provider : ℕ → String → α) (s : CacheState α)
    (t : String) : α × CacheState α :=
  match lookupTicker t s.entries with
  | some v => (v, s)
  | none =>
    let v := provider s.providerCalls.length t
    (v, ⟨(t, v) :: s.entries, s.providerCalls ++ [t]⟩)

/-- Run a session's sequence of fetches through the cache, collecting each
request with its returned value. -/
def runCachedAux {α : Type} (provider : ℕ → String → α) :
    List String → CacheState α → List (String × α) × CacheState α
  | [], s => ([], s)
  | t :: ts, s =>
    let r := cachedFetch provider s t
    let rest := runCachedAux provider ts r.2
    ((t, r.1) :: rest.1, rest.2)

/-- A session's fetches, starting from the empty cache. -/
def runCached {α : Type} (provider : ℕ → String → α) (requests : List String) :
    List (String × α) × CacheState α :=
  runCachedAux provider requests ⟨[], []⟩

/-! ## The Monte Carlo button block as an event trace

The Monte Carlo button block is straight-line code (src lines 421–425):
construct the model, call `simulate_prices()`, then price the call and the
put.  Its calls on the `MonteCarloPricing` instance, in program order: -/

/-- An operation on the `MonteCarloPricing` instance of one run. -/
inductive MCEvent where
  | constructModel
  | simulate
  | price (optionLabel : String)
  deriving DecidableEq

/-- Whether an event is the `simulate_prices()` call. -/
def MCEvent.isSimulate : MCEvent → Bool
  | .simulate => true
  | _ => false

/-- Whether an event is a `calculate_option_price` call. -/
def MCEvent.isPrice : MCEvent → Bool
  | .price _ => true
  | _ => false

/-- The operations the Monte Carlo button block performs on its
`MonteCarloPricing` instance, in source order (src lines 421–425). -/
def mcButtonEvents : List MCEvent :=
  [.constructModel, .simulate, .price "Call Option", .price "Put Option"]

/-! ## Dispatch evaluation lemmas -/

theorem BlackScholesModel.bs_calculate_call (m : BlackScholesModel) :
    m.calculate_option_price "Call Option" = some m.callPrice := by
  simp [BlackScholesModel.calculate_option_price]

theorem BlackScholesModel.bs_calculate_put (m : BlackScholesModel) :
    m.calculate_option_price "Put Option" = some m.putPrice := by
  simp [BlackScholesModel.calculate_option_price]

theorem BinomialTreeModel.bin_calculate_call (m : BinomialTreeModel) :
    m.calculate_option_price "Call Option" =
      some (m.priceByInduction (fun sT => max (sT - m.strike_price) 0)) := by
  simp [BinomialTreeModel.calculate_option_price]

theorem BinomialTreeModel.bin_calculate_put (m : BinomialTreeModel) :
    m.calculate_option_price "Put Option" =
      some (m.priceByInduction (fun sT => max (m.strike_price - sT) 0)) := by
  simp [BinomialTreeModel.calculate_option_price]

theorem MonteCarloPricing.calculate_call_of_simulated (m : MonteCarloPricing)
    (ts : List ℝ) (h : m.simulation_results = some ts) :
    m.calculate_option_price "Call Option" =
      .ok (m.discountedMean (ts.map (fun sT => max (sT - m.strike_price) 0))) := by
  simp [MonteCarloPricing.calculate_option_price, h]

theorem MonteCarloPricing.calculate_put_of_simulated (m : MonteCarloPricing)
    (ts : List ℝ) (h : m.simulation_results = some ts) :
    m.calculate_option_price "Put Option" =
      .ok (m.discountedMean (ts.map (fun sT => max (m.strike_price - sT) 0))) := by
  simp [MonteCarloPricing.calculate_option_price, h]

/-! ## Run characterization lemmas -/

/-- The construction-time check passes on a spec-valid parameter tuple. -/
theorem not_invalidParams (spot strike : ℝ) (days : ℤ) (sigma : ℝ)
    (hspot : 0 < spot) (hk : 0 < strike) (hdays : 1 ≤ days) (hs : 0 ≤ sigma) :
    ¬ invalidParams spot strike days sigma := by
  unfold invalidParams yearsFrom
  push_neg
  have hd : (1 : ℝ) ≤ (days : ℝ) := by exact_mod_cast hdays
  exact ⟨hs, div_pos (by linarith) (by norm_num), hspot, hk⟩

theorem BlackScholesModel.bs_make_ok (spot strike : ℝ) (days : ℤ) (r sigma : ℝ)
    (h : ¬ invalidParams spot strike days sigma) :
    BlackScholesModel.make spot strike days r sigma =
      Except.ok ⟨spot, strike, days, r, sigma⟩ := by
  rw [BlackScholesModel.make, if_neg h]

theorem MonteCarloPricing.mc_make_ok (spot strike : ℝ) (days : ℤ) (r sigma : ℝ)
    (n : ℕ) (h : ¬ invalidParams spot strike days sigma) :
    MonteCarloPricing.make spot strike days r sigma n =
      Except.ok ⟨spot, strike, days, r, sigma, n, none⟩ := by
  rw [MonteCarloPricing.make, if_neg h]

theorem BinomialTreeModel.bin_make_ok (spot strike : ℝ) (days : ℤ) (r sigma : ℝ)
    (steps : ℕ) (h1 : ¬ invalidParams spot strike days sigma)
    (h2 : 0 ≤ (⟨spot, strike, days, r, sigma, steps⟩ : BinomialTreeModel).riskNeutralP ∧
      (⟨spot, strike, days, r, sigma, steps⟩ : BinomialTreeModel).riskNeutralP ≤ 1) :
    BinomialTreeModel.make spot strike days r sigma steps =
      Except.ok ⟨spot, strike, days, r, sigma, steps⟩ := by
  rw [BinomialTreeModel.make, if_neg h1, if_neg (by push_neg; exact h2)]

/-- With volatility 0 and risk-free rate 0 the lattice degenerates to
`u = d = 1` and the derived risk-neutral probability is 0, inside [0,1]. -/
theorem BinomialTreeModel.riskNeutralP_of_zero (m : BinomialTreeModel)
    (hs : m.volatility = 0) (hr : m.risk_free_rate = 0) :
    m.riskNeutralP = 0 := by
  simp [BinomialTreeModel.riskNeutralP, BinomialTreeModel.upFactor,
    BinomialTreeModel.downFactor, hs, hr]

theorem bsCalculateRun_ok (strike_price : ℝ) (rp sp : ℕ) (t e : ℤ)
    (data : HistData) (h : data ≠ [])
    (hspot : 0 < Ticker.get_last_price data "Close") (hk : 0 < strike_price)
    (hdays : 1 ≤ days_to_maturity t e) :
    bsCalculateRun (Except.ok data) strike_price rp sp t e =
      RunOutcome.priced
        ⟨Ticker.get_last_price data "Close", strike_price, days_to_maturity t e,
          (rp : ℝ) / 100, (sp : ℝ) / 100⟩
        (BlackScholesModel.callPrice
          ⟨Ticker.get_last_price data "Close", strike_price, days_to_maturity t e,
            (rp : ℝ) / 100, (sp : ℝ) / 100⟩)
        (BlackScholesModel.putPrice
          ⟨Ticker.get_last_price data "Close", strike_price, days_to_maturity t e,
            (rp : ℝ) / 100, (sp : ℝ) / 100⟩) := by
  rw [bsCalculateRun]
  simp only [get_historical_data]
  rw [if_neg (by simpa [List.isEmpty_iff] using h)]
  rw [BlackScholesModel.bs_make_ok _ _ _ _ _
    (not_invalidParams _ _ _ _ hspot hk hdays (by positivity))]
  rfl

theorem mcCalculateRun_ok (strike_price : ℝ) (rp sp : ℕ) (t e : ℤ) (n : ℕ)
    (draws : List (List ℝ)) (data : HistData) (h : data ≠ [])
    (hspot : 0 < Ticker.get_last_price data "Close") (hk : 0 < strike_price)
    (hdays : 1 ≤ days_to_maturity t e) :
    mcCalculateRun (Except.ok data) strike_price rp sp t e n draws =
      (let MC := (⟨Ticker.get_last_price data "Close", strike_price,
          days_to_maturity t e, (rp : ℝ) / 100, (sp : ℝ) / 100, n,
          none⟩ : MonteCarloPricing).simulate_prices draws
       RunOutcome.priced MC
        (MC.discountedMean
          (((MC.simulation_results).getD []).map (fun sT => max (sT - MC.strike_price) 0)))
        (MC.discountedMean
          (((MC.simulation_results).getD []).map (fun sT => max (MC.strike_price - sT) 0)))) := by
  rw [mcCalculateRun]
  simp only [get_historical_data]
  rw [if_neg (by simpa [List.isEmpty_iff] using h)]
  rw [MonteCarloPricing.mc_make_ok _ _ _ _ _ _
    (not_invalidParams _ _ _ _ hspot hk hdays (by positivity))]
  rfl

theorem binomialCalculateRun_ok (strike_price : ℝ) (rp sp : ℕ) (t e : ℤ)
    (steps : ℕ) (data : HistData) (h : data ≠ [])
    (hspot : 0 < Ticker.get_last_price data "Close") (hk : 0 < strike_price)
    (hdays : 1 ≤ days_to_maturity t e)
    (hp : 0 ≤ (⟨Ticker.get_last_price data "Close", strike_price,
        days_to_maturity t e, (rp : ℝ) / 100, (sp : ℝ) / 100,
        steps⟩ : BinomialTreeModel).riskNeutralP ∧
      (⟨Ticker.get_last_price data "Close", strike_price, days_to_maturity t e,
        (rp : ℝ) / 100, (sp : ℝ) / 100,
        steps⟩ : BinomialTreeModel).riskNeutralP ≤ 1) :
    binomialCalculateRun (Except.ok data) strike_price rp sp t e steps =
      RunOutcome.priced
        ⟨Ticker.get_last_price data "Close", strike_price, days_to_maturity t e,
          (rp : ℝ) / 100, (sp : ℝ) / 100, steps⟩
        (BinomialTreeModel.priceByInduction
          ⟨Ticker.get_last_price data "Close", strike_price, days_to_maturity t e,
            (rp : ℝ) / 100, (sp : ℝ) / 100, steps⟩
          (fun sT => max (sT - strike_price) 0))
        (BinomialTreeModel.priceByInduction
          ⟨Ticker.get_last_price data "Close", strike_price, days_to_maturity t e,
            (rp : ℝ) / 100, (sp : ℝ) / 100, steps⟩
          (fun sT => max (strike_price - sT) 0)) := by
  rw [binomialCalculateRun]
  simp only [get_historical_data]
  rw [if_neg (by simpa [List.isEmpty_iff] using h)]
  rw [BinomialTreeModel.bin_make_ok _ _ _ _ _ _
    (not_invalidParams _ _ _ _ hspot hk hdays (by positivity)) hp]
  rfl

theorem bsCalculateRun_model_mem (pr : Except String HistData) (strike_price : ℝ)
    (rp sp : ℕ) (t e : ℤ) (M : BlackScholesModel)
    (hM : M ∈ (bsCalculateRun pr strike_price rp sp t e).model?) :
    ∃ data, pr = Except.ok data ∧ data ≠ [] ∧
      M = ⟨Ticker.get_last_price data "Close", strike_price, days_to_maturity t e,
        (rp : ℝ) / 100, (sp : ℝ) / 100⟩ := by
  match pr with
  | Except.error msg =>
    simp [bsCalculateRun, get_historical_data, RunOutcome.model?] at hM
  | Except.ok data =>
    match data with
    | [] => simp [bsCalculateRun, get_historical_data, RunOutcome.model?] at hM
    | row :: rest =>
      refine ⟨row :: rest, rfl, by simp, ?_⟩
      rw [bsCalculateRun] at hM
      simp only [get_historical_data] at hM
      rw [if_neg (by simp), BlackScholesModel.make] at hM
      by_cases hval : invalidParams (Ticker.get_last_price (row :: rest) "Close")
          strike_price (days_to_maturity t e) ((sp : ℝ) / 100)
      · rw [if_pos hval] at hM
        simp [RunOutcome.model?] at hM
      · rw [if_neg hval] at hM
        simpa [RunOutcome.model?, Option.mem_def,
          BlackScholesModel.bs_calculate_call,
          BlackScholesModel.bs_calculate_put] using hM.symm

theorem mcCalculateRun_model_mem (pr : Except String HistData) (strike_price : ℝ)
    (rp sp : ℕ) (t e : ℤ) (n : ℕ) (draws : List (List ℝ)) (M : MonteCarloPricing)
    (hM : M ∈ (mcCalculateRun pr strike_price rp sp t e n draws).model?) :
    ∃ data, pr = Except.ok data ∧ data ≠ [] ∧
      M = (⟨Ticker.get_last_price data "Close", strike_price, days_to_maturity t e,
        (rp : ℝ) / 100, (sp : ℝ) / 100, n, none⟩ : MonteCarloPricing).simulate_prices draws := by
  match pr with
  | Except.error msg =>
    simp [mcCalculateRun, get_historical_data, RunOutcome.model?] at hM
  | Except.ok data =>
    match data with
    | [] => simp [mcCalculateRun, get_historical_data, RunOutcome.model?] at hM
    | row :: rest =>
      refine ⟨row :: rest, rfl, by simp, ?_⟩
      rw [mcCalculateRun] at hM
      simp only [get_historical_data] at hM
      rw [if_neg (by simp), MonteCarloPricing.make] at hM
      by_cases hval : invalidParams (Ticker.get_last_price (row :: rest) "Close")
          strike_price (days_to_maturity t e) ((sp : ℝ) / 100)
      · rw [if_pos hval] at hM
        simp [RunOutcome.model?] at hM
      · rw [if_neg hval] at hM
        have hM2 := hM.symm
        simp [MonteCarloPricing.calculate_option_price,
          MonteCarloPricing.simulate_prices, RunOutcome.model?,
          Option.mem_def] at hM2
        rw [hM2]
        simp [MonteCarloPricing.simulate_prices]

theorem binomialCalculateRun_model_mem (pr : Except String HistData)
    (strike_price : ℝ) (rp sp : ℕ) (t e : ℤ) (steps : ℕ) (M : BinomialTreeModel)
    (hM : M ∈ (binomialCalculateRun pr strike_price rp sp t e steps).model?) :
    ∃ data, pr = Except.ok data ∧ data ≠ [] ∧
      M = ⟨Ticker.get_last_price data "Close", strike_price, days_to_maturity t e,
        (rp : ℝ) / 100, (sp : ℝ) / 100, steps⟩ := by
  match pr with
  | Except.error msg =>
    simp [binomialCalculateRun, get_historical_data, RunOutcome.model?] at hM
  | Except.ok data =>
    match data with
    | [] => simp [binomialCalculateRun, get_historical_data, RunOutcome.model?] at hM
    | row :: rest =>
      refine ⟨row :: rest, rfl, by simp, ?_⟩
      rw [binomialCalculateRun] at hM
      simp only [get_historical_data] at hM
      rw [if_neg (by simp), BinomialTreeModel.make] at hM
      by_cases hval : invalidParams (Ticker.get_last_price (row :: rest) "Close")
          strike_price (days_to_maturity t e) ((sp : ℝ) / 100)
      · rw [if_pos hval] at hM
        simp [RunOutcome.model?] at hM
      · rw [if_neg hval] at hM
        by_cases hlat : (⟨Ticker.get_last_price (row :: rest) "Close", strike_price,
            days_to_maturity t e, (rp : ℝ) / 100, (sp : ℝ) / 100,
            steps⟩ : BinomialTreeModel).riskNeutralP < 0 ∨
            1 < (⟨Ticker.get_last_price (row :: rest) "Close", strike_price,
            days_to_maturity t e, (rp : ℝ) / 100, (sp : ℝ) / 100,
            steps⟩ : BinomialTreeModel).riskNeutralP
        · rw [if_pos hlat] at hM
          simp [RunOutcome.model?] at hM
        · rw [if_neg hlat] at hM
          simpa [RunOutcome.model?, Option.mem_def,
            BinomialTreeModel.bin_calculate_call,
            BinomialTreeModel.bin_calculate_put] using hM.symm

/-- Fields of a simulated `MonteCarloPricing` instance other than the
simulation slot are those the constructor received. -/
theorem MonteCarloPricing.simulate_prices_fields (m : MonteCarloPricing)
    (draws : List (List ℝ)) :
    (m.simulate_prices draws).spot_price = m.spot_price ∧
    (m.simulate_prices draws).strike_price = m.strike_price ∧
    (m.simulate_prices draws).days_to_maturity = m.days_to_maturity ∧
    (m.simulate_prices draws).risk_free_rate = m.risk_free_rate ∧
    (m.simulate_prices draws).volatility = m.volatility ∧
    (m.simulate_prices draws).number_of_simulations = m.number_of_simulations := by
  simp [MonteCarloPricing.simulate_prices]

/-! ## Shared sample data for concrete instantiations -/

/-- A one-row historical series whose last close is 101. -/
def sampleRow : OHLCVRow := ⟨100, 102, 99, 101, 1000⟩

/-- A nonempty fetched series. -/
def sampleData : HistData := [sampleRow]

theorem sampleData_last_close : Ticker.get_last_price sampleData "Close" = 101 := rfl

/-- A percentage divided by 100 lands in the unit interval. -/
theorem pct_unit_interval (v : ℕ) (hv : v ≤ 100) :
    0 ≤ (v : ℝ) / 100 ∧ (v : ℝ) / 100 ≤ 1 := by
  constructor
  · positivity
  · rw [div_le_one (by norm_num)]
    exact_mod_cast hv

/-! ## Claims -/

/-- C3: every exercise date the UI allows (`st.date_input` with
`min_value = today + 1 day`) yields `days_to_maturity ≥ 1`, hence a strictly
positive time to maturity `T = days_to_maturity/365`, and the
`days_to_maturity` field every model constructor receives in every branch is
that same value, `≥ 1`. -/
theorem exercise_date_gives_positive_maturity (today selected : ℤ)
    (h : exerciseDateAdmissible today selected) (pr : Except String HistData)
    (k : ℝ) (rp sp n steps : ℕ) (draws : List (List ℝ)) :
    1 ≤ days_to_maturity today selected ∧
    0 < yearsFrom (days_to_maturity today selected) ∧
    (∀ M ∈ (bsCalculateRun pr k rp sp today selected).model?,
      M.days_to_maturity = days_to_maturity today selected ∧ 1 ≤ M.days_to_maturity) ∧
    (∀ M ∈ (mcCalculateRun pr k rp sp today selected n draws).model?,
      M.days_to_maturity = days_to_maturity today selected ∧ 1 ≤ M.days_to_maturity) ∧
    (∀ M ∈ (binomialCalculateRun pr k rp sp today selected steps).model?,
      M.days_to_maturity = days_to_maturity today selected ∧ 1 ≤ M.days_to_maturity) := by
  have h1 : 1 ≤ days_to_maturity today selected := by
    unfold exerciseDateAdmissible at h
    unfold days_to_maturity
    omega
  have hcast : (1 : ℝ) ≤ (days_to_maturity today selected : ℝ) := by exact_mod_cast h1
  refine ⟨h1, ?_, ?_, ?_, ?_⟩
  · unfold yearsFrom
    apply div_pos (by linarith) (by norm_num)
  · intro M hM
    obtain ⟨data, -, -, hMeq⟩ := bsCalculateRun_model_mem _ _ _ _ _ _ _ hM
    subst hMeq
    exact ⟨rfl, h1⟩
  · intro M hM
    obtain ⟨data, -, -, hMeq⟩ := mcCalculateRun_model_mem _ _ _ _ _ _ _ _ _ hM
    subst hMeq
    simp only [MonteCarloPricing.simulate_prices]
    exact ⟨trivial, h1⟩
  · intro M hM
    obtain ⟨data, -, -, hMeq⟩ := binomialCalculateRun_model_mem _ _ _ _ _ _ _ _ hM
    subst hMeq
    exact ⟨rfl, h1⟩

/-- C3 witness: today = 0, exercise date = 365. -/
theorem exercise_date_gives_positive_maturity_witness :
    1 ≤ days_to_maturity 0 365 ∧
    0 < yearsFrom (days_to_maturity 0 365) ∧
    (∀ M ∈ (bsCalculateRun (Except.ok sampleData) 100 5 20 0 365).model?,
      M.days_to_maturity = days_to_maturity 0 365 ∧ 1 ≤ M.days_to_maturity) ∧
    (∀ M ∈ (mcCalculateRun (Except.ok sampleData) 100 5 20 0 365 1000 []).model?,
      M.days_to_maturity = days_to_maturity 0 365 ∧ 1 ≤ M.days_to_maturity) ∧
    (∀ M ∈ (binomialCalculateRun (Except.ok sampleData) 100 5 20 0 365 15000).model?,
      M.days_to_maturity = days_to_maturity 0 365 ∧ 1 ≤ M.days_to_maturity) :=
  exercise_date_gives_positive_maturity 0 365 (by decide)
    (Except.ok sampleData) 100 5 20 1000 15000 []

/-- C4: the risk-free-rate and volatility sliders return integers in [0,100];
divided by 100 (before any model is constructed), the `risk_free_rate` and
`volatility` fields every constructor receives lie in [0,1], in all three
branches. -/
theorem percent_sliders_scaled_into_unit_interval (pr : Except String HistData)
    (k : ℝ) (t e : ℤ) (n steps : ℕ) (draws : List (List ℝ)) (rp sp : ℕ)
    (hr : sliderAdmissible 0 100 rp) (hs : sliderAdmissible 0 100 sp) :
    (∀ M ∈ (bsCalculateRun pr k rp sp t e).model?,
      (0 ≤ M.risk_free_rate ∧ M.risk_free_rate ≤ 1) ∧
      (0 ≤ M.volatility ∧ M.volatility ≤ 1)) ∧
    (∀ M ∈ (mcCalculateRun pr k rp sp t e n draws).model?,
      (0 ≤ M.risk_free_rate ∧ M.risk_free_rate ≤ 1) ∧
      (0 ≤ M.volatility ∧ M.volatility ≤ 1)) ∧
    (∀ M ∈ (binomialCalculateRun pr k rp sp t e steps).model?,
      (0 ≤ M.risk_free_rate ∧ M.risk_free_rate ≤ 1) ∧
      (0 ≤ M.volatility ∧ M.volatility ≤ 1)) := by
  have hrB := pct_unit_interval rp hr.2
  have hsB := pct_unit_interval sp hs.2
  refine ⟨?_, ?_, ?_⟩ <;> intro M hM
  · obtain ⟨data, -, -, hMeq⟩ := bsCalculateRun_model_mem _ _ _ _ _ _ _ hM
    subst hMeq
    exact ⟨hrB, hsB⟩
  · obtain ⟨data, -, -, hMeq⟩ := mcCalculateRun_model_mem _ _ _ _ _ _ _ _ _ hM
    subst hMeq
    simp only [MonteCarloPricing.simulate_prices]
    exact ⟨hrB, hsB⟩
  · obtain ⟨data, -, -, hMeq⟩ := binomialCalculateRun_model_mem _ _ _ _ _ _ _ _ hM
    subst hMeq
    exact ⟨hrB, hsB⟩

/-- C4 witness: sliders at 5 % and 20 %. -/
theorem percent_sliders_scaled_into_unit_interval_witness :
    (∀ M ∈ (bsCalculateRun (Except.ok sampleData) 100 5 20 0 365).model?,
      (0 ≤ M.risk_free_rate ∧ M.risk_free_rate ≤ 1) ∧
      (0 ≤ M.volatility ∧ M.volatility ≤ 1)) ∧
    (∀ M ∈ (mcCalculateRun (Except.ok sampleData) 100 5 20 0 365 1000 []).model?,
      (0 ≤ M.risk_free_rate ∧ M.risk_free_rate ≤ 1) ∧
      (0 ≤ M.volatility ∧ M.volatility ≤ 1)) ∧
    (∀ M ∈ (binomialCalculateRun (Except.ok sampleData) 100 5 20 0 365 15000).model?,
      (0 ≤ M.risk_free_rate ∧ M.risk_free_rate ≤ 1) ∧
      (0 ≤ M.volatility ∧ M.volatility ≤ 1)) :=
  percent_sliders_scaled_into_unit_interval (Except.ok sampleData) 100 0 365
    1000 15000 [] 5 20 (by decide) (by decide)

/-- C5: the simulation-count slider returns an integer in [100, 100000] and
the time-step slider an integer in [5000, 100000]; the corresponding model
field always carries exactly that in-range value. -/
theorem model_control_sliders_within_contract (pr : Except String HistData)
    (k : ℝ) (rp sp : ℕ) (t e : ℤ) (draws : List (List ℝ)) (n steps : ℕ)
    (hn : sliderAdmissible 100 100000 n)
    (hsteps : sliderAdmissible 5000 100000 steps) :
    (∀ M ∈ (mcCalculateRun pr k rp sp t e n draws).model?,
      M.number_of_simulations = n ∧
      100 ≤ M.number_of_simulations ∧ M.number_of_simulations ≤ 100000) ∧
    (∀ M ∈ (binomialCalculateRun pr k rp sp t e steps).model?,
      M.number_of_time_steps = steps ∧
      5000 ≤ M.number_of_time_steps ∧ M.number_of_time_steps ≤ 100000) := by
  constructor <;> intro M hM
  · obtain ⟨data, -, -, hMeq⟩ := mcCalculateRun_model_mem _ _ _ _ _ _ _ _ _ hM
    subst hMeq
    simp only [MonteCarloPricing.simulate_prices]
    exact ⟨trivial, hn.1, hn.2⟩
  · obtain ⟨data, -, -, hMeq⟩ := binomialCalculateRun_model_mem _ _ _ _ _ _ _ _ hM
    subst hMeq
    exact ⟨rfl, hsteps.1, hsteps.2⟩

/-- C5 witness: 10000 simulations and 15000 time steps (the UI defaults). -/
theorem model_control_sliders_within_contract_witness :
    (∀ M ∈ (mcCalculateRun (Except.ok sampleData) 100 5 20 0 365 10000 []).model?,
      M.number_of_simulations = 10000 ∧
      100 ≤ M.number_of_simulations ∧ M.number_of_simulations ≤ 100000) ∧
    (∀ M ∈ (binomialCalculateRun (Except.ok sampleData) 100 5 20 0 365 15000).model?,
      M.number_of_time_steps = 15000 ∧
      5000 ≤ M.number_of_time_steps ∧ M.number_of_time_steps ≤ 100000) :=
  model_control_sliders_within_contract (Except.ok sampleData) 100 5 20 0 365
    [] 10000 15000 (by decide) (by decide)

/-- C6: when the provider raises (so the cached wrapper returns `None`) or the
returned series is empty, every branch's button block stops at the
`data is not None and not data.empty` guard with the error message — no model
is constructed and no price is computed or displayed. -/
theorem fetch_failure_blocks_pricing (pr : Except String HistData)
    (h : ∀ data, get_historical_data pr = some data → data = [])
    (k : ℝ) (rp sp : ℕ) (t e : ℤ) (n steps : ℕ) (draws : List (List ℝ)) :
    bsCalculateRun pr k rp sp t e = RunOutcome.fetchError ∧
    mcCalculateRun pr k rp sp t e n draws = RunOutcome.fetchError ∧
    binomialCalculateRun pr k rp sp t e steps = RunOutcome.fetchError ∧
    (bsCalculateRun pr k rp sp t e).model? = none ∧
    (bsCalculateRun pr k rp sp t e).prices? = none := by
  match pr with
  | Except.error msg => exact ⟨rfl, rfl, rfl, rfl, rfl⟩
  | Except.ok data =>
    have hd : data = [] := h data rfl
    subst hd
    exact ⟨rfl, rfl, rfl, rfl, rfl⟩

/-- C6 witness: the provider raises `DataUnavailableError`. -/
theorem fetch_failure_blocks_pricing_witness :
    bsCalculateRun (Except.error "DataUnavailableError") 100 5 20 0 365 =
      RunOutcome.fetchError ∧
    mcCalculateRun (Except.error "DataUnavailableError") 100 5 20 0 365 1000 [] =
      RunOutcome.fetchError ∧
    binomialCalculateRun (Except.error "DataUnavailableError") 100 5 20 0 365 15000 =
      RunOutcome.fetchError ∧
    (bsCalculateRun (Except.error "DataUnavailableError") 100 5 20 0 365).model? = none ∧
    (bsCalculateRun (Except.error "DataUnavailableError") 100 5 20 0 365).prices? = none :=
  fetch_failure_blocks_pricing (Except.error "DataUnavailableError")
    (fun data hd => by simp [get_historical_data] at hd) 100 5 20 0 365 1000 15000 []

/-- C7: in every branch, whenever a model is constructed, its spot price is
exactly `Ticker.get_last_price(data, 'Close')` for the fetched series `data`,
and that scalar is the only provider-derived value the model receives. -/
theorem spot_price_is_last_close (pr : Except String HistData) (k : ℝ)
    (rp sp : ℕ) (t e : ℤ) (n steps : ℕ) (draws : List (List ℝ)) :
    (∀ M ∈ (bsCalculateRun pr k rp sp t e).model?,
      ∃ data, pr = Except.ok data ∧
        M.spot_price = Ticker.get_last_price data "Close") ∧
    (∀ M ∈ (mcCalculateRun pr k rp sp t e n draws).model?,
      ∃ data, pr = Except.ok data ∧
        M.spot_price = Ticker.get_last_price data "Close") ∧
    (∀ M ∈ (binomialCalculateRun pr k rp sp t e steps).model?,
      ∃ data, pr = Except.ok data ∧
        M.spot_price = Ticker.get_last_price data "Close") := by
  refine ⟨?_, ?_, ?_⟩ <;> intro M hM
  · obtain ⟨data, hpr, -, hMeq⟩ := bsCalculateRun_model_mem _ _ _ _ _ _ _ hM
    exact ⟨data, hpr, by rw [hMeq]⟩
  · obtain ⟨data, hpr, -, hMeq⟩ := mcCalculateRun_model_mem _ _ _ _ _ _ _ _ _ hM
    refine ⟨data, hpr, ?_⟩
    rw [hMeq]
    simp [MonteCarloPricing.simulate_prices]
  · obtain ⟨data, hpr, -, hMeq⟩ := binomialCalculateRun_model_mem _ _ _ _ _ _ _ _ hM
    exact ⟨data, hpr, by rw [hMeq]⟩

/-- C7 witness: a fetched one-row series. -/
theorem spot_price_is_last_close_witness :
    ∃ data, (Except.ok sampleData : Except String HistData) = Except.ok data ∧
      (BlackScholesModel.mk (Ticker.get_last_price sampleData "Close") 100
        (days_to_maturity 0 365) (((5 : ℕ) : ℝ) / 100)
        (((20 : ℕ) : ℝ) / 100)).spot_price = Ticker.get_last_price data "Close" := by
  have hmem : (BlackScholesModel.mk (Ticker.get_last_price sampleData "Close") 100
      (days_to_maturity 0 365) (((5 : ℕ) : ℝ) / 100) (((20 : ℕ) : ℝ) / 100)) ∈
      (bsCalculateRun (Except.ok sampleData) 100 5 20 0 365).model? := by
    rw [bsCalculateRun_ok 100 5 20 0 365 sampleData (by simp [sampleData])
      (by rw [sampleData_last_close]; norm_num) (by norm_num) (by decide)]
    rfl
  exact (spot_price_is_last_close (Except.ok sampleData) 100 5 20 0 365 1 1 []).1 _ hmem

/-- C9: both percentage sliders (minimum 0) admit the value 0, and on
otherwise spec-valid inputs (positive strike, a UI-admissible exercise date,
a positive fetched spot) a run with the volatility slider at 0 and the rate
slider at 0 is not rejected or adjusted: each branch still constructs its
model and prices, the model receiving volatility exactly 0 = 0/100 and
risk-free rate 0. -/
theorem zero_volatility_reachable (k : ℝ) (hk : 0 < k) (t e : ℤ)
    (hdate : exerciseDateAdmissible t e) (n steps : ℕ) (draws : List (List ℝ))
    (data : HistData) (h : data ≠ [])
    (hspot : 0 < Ticker.get_last_price data "Close") :
    sliderAdmissible 0 100 0 ∧
    (∃ M c p, bsCalculateRun (Except.ok data) k 0 0 t e = RunOutcome.priced M c p ∧
      M.volatility = 0 ∧ M.risk_free_rate = 0) ∧
    (∃ M c p, mcCalculateRun (Except.ok data) k 0 0 t e n draws = RunOutcome.priced M c p ∧
      M.volatility = 0 ∧ M.risk_free_rate = 0) ∧
    (∃ M c p, binomialCalculateRun (Except.ok data) k 0 0 t e steps = RunOutcome.priced M c p ∧
      M.volatility = 0 ∧ M.risk_free_rate = 0) := by
  have hdays : 1 ≤ days_to_maturity t e := by
    unfold exerciseDateAdmissible at hdate
    unfold days_to_maturity
    omega
  refine ⟨by decide, ?_, ?_, ?_⟩
  · refine ⟨_, _, _, bsCalculateRun_ok k 0 0 t e data h hspot hk hdays, ?_, ?_⟩ <;>
      norm_num
  · refine ⟨_, _, _, mcCalculateRun_ok k 0 0 t e n draws data h hspot hk hdays, ?_, ?_⟩ <;>
      simp [MonteCarloPricing.simulate_prices]
  · have hp : 0 ≤ (⟨Ticker.get_last_price data "Close", k, days_to_maturity t e,
        ((0 : ℕ) : ℝ) / 100, ((0 : ℕ) : ℝ) / 100,
        steps⟩ : BinomialTreeModel).riskNeutralP ∧
        (⟨Ticker.get_last_price data "Close", k, days_to_maturity t e,
        ((0 : ℕ) : ℝ) / 100, ((0 : ℕ) : ℝ) / 100,
        steps⟩ : BinomialTreeModel).riskNeutralP ≤ 1 := by
      rw [BinomialTreeModel.riskNeutralP_of_zero _ (by norm_num) (by norm_num)]
      norm_num
    refine ⟨_, _, _,
      binomialCalculateRun_ok k 0 0 t e steps data h hspot hk hdays hp, ?_, ?_⟩ <;>
      norm_num

/-- C9 witness: zero sliders on a nonempty fetched series with spot 101,
strike 100, a one-year maturity. -/
theorem zero_volatility_reachable_witness :
    sliderAdmissible 0 100 0 ∧
    (∃ M c p, bsCalculateRun (Except.ok sampleData) 100 0 0 0 365 = RunOutcome.priced M c p ∧
      M.volatility = 0 ∧ M.risk_free_rate = 0) ∧
    (∃ M c p, mcCalculateRun (Except.ok sampleData) 100 0 0 0 365 1000 [] = RunOutcome.priced M c p ∧
      M.volatility = 0 ∧ M.risk_free_rate = 0) ∧
    (∃ M c p, binomialCalculateRun (Except.ok sampleData) 100 0 0 0 365 15000 = RunOutcome.priced M c p ∧
      M.volatility = 0 ∧ M.risk_free_rate = 0) :=
  zero_volatility_reachable 100 (by norm_num) 0 365 (by decide) 1000 15000 []
    sampleData (by simp [sampleData]) (by rw [sampleData_last_close]; norm_num)

/-- C10: the displayed current price is the result of the separate one-day
`get_current_price` query and never enters the pricing run — the run outcome
is identical whatever current price was displayed, any priced model's spot is
the last Close of the independently fetched historical series, and there are
inputs on which the displayed price (100) and the spot actually priced with
(101) differ. -/
theorem displayed_current_price_not_used_for_pricing (cp cpB : Option ℝ)
    (pr : Except String HistData) (k : ℝ) (rp sp : ℕ) (t e : ℤ) :
    (bsCalculatePage cp pr k rp sp t e).1 = cp ∧
    (bsCalculatePage cp pr k rp sp t e).2 = (bsCalculatePage cpB pr k rp sp t e).2 ∧
    (∀ M ∈ (bsCalculatePage cp pr k rp sp t e).2.model?,
      ∃ data, pr = Except.ok data ∧
        M.spot_price = Ticker.get_last_price data "Close") ∧
    ((bsCalculatePage (get_current_price (Except.ok [⟨99, 100, 98, 100, 500⟩]))
        (Except.ok sampleData) 100 5 20 0 365).1 = some 100 ∧
      (∀ M ∈ (bsCalculatePage (get_current_price (Except.ok [⟨99, 100, 98, 100, 500⟩]))
          (Except.ok sampleData) 100 5 20 0 365).2.model?, M.spot_price = 101) ∧
      (100 : ℝ) ≠ 101) := by
  refine ⟨rfl, rfl, ?_, rfl, ?_, by norm_num⟩
  · intro M hM
    simp only [bsCalculatePage] at hM
    obtain ⟨data, hpr, -, hMeq⟩ := bsCalculateRun_model_mem _ _ _ _ _ _ _ hM
    exact ⟨data, hpr, by rw [hMeq]⟩
  · intro M hM
    simp only [bsCalculatePage] at hM
    obtain ⟨data, hpr, -, hMeq⟩ := bsCalculateRun_model_mem _ _ _ _ _ _ _ hM
    obtain rfl : sampleData = data := by
      injection hpr
    rw [hMeq]
    simp [sampleData, sampleRow, Ticker.get_last_price, OHLCVRow.field]

/-- C10 witness: a displayed price of 999 and an unrelated historical series. -/
theorem displayed_current_price_not_used_for_pricing_witness :
    (bsCalculatePage (some 999) (Except.ok sampleData) 100 5 20 0 365).1 = some 999 ∧
    (bsCalculatePage (some 999) (Except.ok sampleData) 100 5 20 0 365).2 =
      (bsCalculatePage none (Except.ok sampleData) 100 5 20 0 365).2 ∧
    (∀ M ∈ (bsCalculatePage (some 999) (Except.ok sampleData) 100 5 20 0 365).2.model?,
      ∃ data, (Except.ok sampleData : Except String HistData) = Except.ok data ∧
        M.spot_price = Ticker.get_last_price data "Close") ∧
    ((bsCalculatePage (get_current_price (Except.ok [⟨99, 100, 98, 100, 500⟩]))
        (Except.ok sampleData) 100 5 20 0 365).1 = some 100 ∧
      (∀ M ∈ (bsCalculatePage (get_current_price (Except.ok [⟨99, 100, 98, 100, 500⟩]))
          (Except.ok sampleData) 100 5 20 0 365).2.model?, M.spot_price = 101) ∧
      (100 : ℝ) ≠ 101) :=
  displayed_current_price_not_used_for_pricing (some 999) none
    (Except.ok sampleData) 100 5 20 0 365

/-- C1 counterexample: the option-type argument the models accept is a string,
not a value of a closed two-variant enumeration — the third value `"Straddle"`
is representable at the interface, is neither variant's label, and reaches the
dispatcher of each model, which turns it away only at run time. -/
theorem option_type_third_value_representable :
    (⟨100, 100, 365, 5 / 100, 20 / 100⟩ : BlackScholesModel).calculate_option_price
      "Straddle" = none ∧
    (⟨100, 100, 365, 5 / 100, 20 / 100, 15000⟩ : BinomialTreeModel).calculate_option_price
      "Straddle" = none ∧
    (⟨100, 100, 365, 5 / 100, 20 / 100, 1000, none⟩ : MonteCarloPricing).calculate_option_price
      "Straddle" = PriceOutcome.unknownType ∧
    "Straddle" ≠ OptionType.toLabel OptionType.Call ∧
    "Straddle" ≠ OptionType.toLabel OptionType.Put := by
  refine ⟨?_, ?_, ?_, by decide, by decide⟩ <;>
    simp [BlackScholesModel.calculate_option_price,
      BinomialTreeModel.calculate_option_price, MonteCarloPricing.calculate_option_price]

/-- C1 amended: every `calculate_option_price` call site passes one of exactly
the two string labels, which correspond one-to-one to the spec's `OptionType`
variants, and each model's dispatcher accepts exactly those two labels; third
values remain representable in the string-typed argument and are rejected at
run time, not at type-check time. -/
theorem call_sites_use_two_label_dispatch :
    calculateOptionPriceCallSiteLabels = [OptionType.Call.toLabel, OptionType.Put.toLabel] ∧
    (∀ m : BlackScholesModel, ∀ s : String,
      (m.calculate_option_price s).isSome = true ↔
        s = OptionType.Call.toLabel ∨ s = OptionType.Put.toLabel) ∧
    (∀ m : BinomialTreeModel, ∀ s : String,
      (m.calculate_option_price s).isSome = true ↔
        s = OptionType.Call.toLabel ∨ s = OptionType.Put.toLabel) ∧
    (∀ m : MonteCarloPricing, ∀ s : String,
      m.calculate_option_price s = PriceOutcome.unknownType ↔
        ¬(s = OptionType.Call.toLabel ∨ s = OptionType.Put.toLabel)) := by
  refine ⟨rfl, ?_, ?_, ?_⟩
  · intro m s
    unfold BlackScholesModel.calculate_option_price
    split_ifs with h1 h2 <;> simp_all [OptionType.toLabel]
  · intro m s
    unfold BinomialTreeModel.calculate_option_price
    split_ifs with h1 h2 <;> simp_all [OptionType.toLabel]
  · intro m s
    unfold MonteCarloPricing.calculate_option_price
    split_ifs with h1 h2 <;> cases m.simulation_results <;> simp_all [OptionType.toLabel]

/-- C1 amended witness: the `'Call Option'` label is accepted. -/
theorem call_sites_use_two_label_dispatch_witness :
    ((⟨101, 100, 365, 5 / 100, 20 / 100⟩ : BlackScholesModel).calculate_option_price
      "Call Option").isSome = true :=
  (call_sites_use_two_label_dispatch.2.1 ⟨101, 100, 365, 5 / 100, 20 / 100⟩
    "Call Option").mpr (Or.inl rfl)

/-- C2: the Monte Carlo button block invokes `simulate_prices()` exactly once,
before any `calculate_option_price` call on its instance, and on a successful
fetch of spec-valid inputs (positive strike, UI-admissible exercise date,
positive fetched spot) both the call price and the put price are the
discounted mean payoff of the one stored simulation result of that run. -/
theorem mc_simulated_once_before_pricing (k : ℝ) (hk : 0 < k) (rp sp : ℕ)
    (t e : ℤ) (hdate : exerciseDateAdmissible t e) (n : ℕ)
    (draws : List (List ℝ)) (data : HistData) (h : data ≠ [])
    (hspot : 0 < Ticker.get_last_price data "Close") :
    (mcButtonEvents.countP MCEvent.isSimulate = 1 ∧
      (mcButtonEvents.takeWhile (fun ev => !ev.isSimulate)).countP MCEvent.isPrice = 0 ∧
      mcButtonEvents.countP MCEvent.isPrice = 2) ∧
    (∃ M c p, mcCalculateRun (Except.ok data) k rp sp t e n draws = RunOutcome.priced M c p ∧
      ∃ ts, M.simulation_results = some ts ∧
        c = M.discountedMean (ts.map (fun sT => max (sT - M.strike_price) 0)) ∧
        p = M.discountedMean (ts.map (fun sT => max (M.strike_price - sT) 0))) := by
  have hdays : 1 ≤ days_to_maturity t e := by
    unfold exerciseDateAdmissible at hdate
    unfold days_to_maturity
    omega
  refine ⟨by decide, ?_⟩
  refine ⟨_, _, _, mcCalculateRun_ok k rp sp t e n draws data h hspot hk hdays, ?_⟩
  exact ⟨_, rfl, rfl, rfl⟩

/-- C2 witness: a concrete fetched series with spot 101, strike 100, 2
simulated paths, empty draw stream. -/
theorem mc_simulated_once_before_pricing_witness :
    (mcButtonEvents.countP MCEvent.isSimulate = 1 ∧
      (mcButtonEvents.takeWhile (fun ev => !ev.isSimulate)).countP MCEvent.isPrice = 0 ∧
      mcButtonEvents.countP MCEvent.isPrice = 2) ∧
    (∃ M c p, mcCalculateRun (Except.ok sampleData) 100 5 20 0 365 2 [] =
        RunOutcome.priced M c p ∧
      ∃ ts, M.simulation_results = some ts ∧
        c = M.discountedMean (ts.map (fun sT => max (sT - M.strike_price) 0)) ∧
        p = M.discountedMean (ts.map (fun sT => max (M.strike_price - sT) 0))) :=
  mc_simulated_once_before_pricing 100 (by norm_num) 5 20 0 365 (by decide) 2 []
    sampleData (by simp [sampleData]) (by rw [sampleData_last_close]; norm_num)

/-! ## Cache invariants -/

/-- A stored lookup survives any later cached call. -/
theorem cachedFetch_preserves_lookup {α : Type} (provider : ℕ → String → α)
    (s : CacheState α) (t tq : String) (v : α)
    (hv : lookupTicker t s.entries = some v) :
    lookupTicker t ((cachedFetch provider s tq).2).entries = some v := by
  unfold cachedFetch
  cases hq : lookupTicker tq s.entries with
  | some w => simpa using hv
  | none =>
    simp only [lookupTicker]
    by_cases he : tq = t
    · subst he
      rw [hv] at hq
      cases hq
    · simpa [he] using hv

/-- A cached call's result is afterwards stored under its ticker. -/
theorem cachedFetch_result_lookup {α : Type} (provider : ℕ → String → α)
    (s : CacheState α) (t : String) :
    lookupTicker t ((cachedFetch provider s t).2).entries =
      some (cachedFetch provider s t).1 := by
  unfold cachedFetch
  cases hq : lookupTicker t s.entries with
  | some w => simpa using hq
  | none => simp [lookupTicker]

/-- A stored lookup survives a whole request sequence. -/
theorem runCachedAux_preserves_lookup {α : Type} (provider : ℕ → String → α)
    (reqs : List String) (s : CacheState α) (t : String) (v : α)
    (hv : lookupTicker t s.entries = some v) :
    lookupTicker t ((runCachedAux provider reqs s).2).entries = some v := by
  induction reqs generalizing s with
  | nil => simpa [runCachedAux] using hv
  | cons tq ts ih =>
    exact ih _ (cachedFetch_preserves_lookup provider s t tq v hv)

/-- Every response of a request sequence agrees with the final cache. -/
theorem runCachedAux_output_lookup {α : Type} (provider : ℕ → String → α)
    (reqs : List String) (s : CacheState α) (t : String) (v : α)
    (hmem : (t, v) ∈ (runCachedAux provider reqs s).1) :
    lookupTicker t ((runCachedAux provider reqs s).2).entries = some v := by
  induction reqs generalizing s with
  | nil => simp [runCachedAux] at hmem
  | cons tq ts ih =>
    rcases List.mem_cons.mp hmem with heq | hmem2
    · injection heq with h1 h2
      subst h1
      subst h2
      exact runCachedAux_preserves_lookup provider ts _ _ _
        (cachedFetch_result_lookup provider s t)
    · exact ih _ hmem2

/-- The invariant tying the provider-call log to the cache: the log has no
duplicates and every logged ticker has a stored answer. -/
def CacheInv {α : Type} (s : CacheState α) : Prop :=
  s.providerCalls.Nodup ∧
  ∀ t ∈ s.providerCalls, ∃ v, lookupTicker t s.entries = some v

theorem cachedFetch_inv {α : Type} (provider : ℕ → String → α)
    (s : CacheState α) (t : String) (hs : CacheInv s) :
    CacheInv (cachedFetch provider s t).2 := by
  unfold cachedFetch
  cases hq : lookupTicker t s.entries with
  | some w => simpa using hs
  | none =>
    constructor
    · have ht : t ∉ s.providerCalls := by
        intro hmem
        obtain ⟨v, hv⟩ := hs.2 t hmem
        rw [hv] at hq
        cases hq
      simp [List.nodup_append, hs.1, ht]
    · intro t2 ht2
      rcases List.mem_append.mp ht2 with h2 | h2
      · obtain ⟨v, hv⟩ := hs.2 t2 h2
        refine ⟨v, ?_⟩
        simp only [lookupTicker]
        by_cases he : t = t2
        · subst he
          rw [hv] at hq
          cases hq
        · simpa [he] using hv
      · rw [List.mem_singleton] at h2
        subst h2
        exact ⟨provider s.providerCalls.length t2, by simp [lookupTicker]⟩

theorem runCachedAux_inv {α : Type} (provider : ℕ → String → α)
    (reqs : List String) (s : CacheState α) (hs : CacheInv s) :
    CacheInv ((runCachedAux provider reqs s).2) := by
  induction reqs generalizing s with
  | nil => simpa [runCachedAux] using hs
  | cons tq ts ih => exact ih _ (cachedFetch_inv provider s tq hs)

/-- Memoization, generically: over any session the provider is queried at most
once per distinct ticker, and equal tickers receive equal responses. -/
theorem runCached_spec {α : Type} (f : ℕ → String → α) (reqs : List String) :
    (runCached f reqs).2.providerCalls.Nodup ∧
    ∀ t v w, (t, v) ∈ (runCached f reqs).1 → (t, w) ∈ (runCached f reqs).1 →
      v = w := by
  constructor
  · exact (runCachedAux_inv f reqs ⟨[], []⟩ ⟨List.nodup_nil, by simp⟩).1
  · intro t v w hv hw
    have h1 := runCachedAux_output_lookup f reqs ⟨[], []⟩ t v hv
    have h2 := runCachedAux_output_lookup f reqs ⟨[], []⟩ t w hw
    rw [h1] at h2
    exact Option.some.inj h2

/-- C8: both `st.cache_data`-wrapped fetchers are memoized per ticker within a
session: the underlying provider is queried at most once per distinct ticker
(the query log of a session has no duplicates), and two requests with the same
ticker return the same result — for `get_historical_data` and for
`get_current_price`, even when the raw provider would answer differently on a
repeated query. -/
theorem cache_memoizes_per_ticker
    (provider provider1d : ℕ → String → Except String HistData)
    (reqs reqs1d : List String) :
    ((runCached (fun i tick => get_historical_data (provider i tick)) reqs).2.providerCalls.Nodup ∧
      ∀ t v w,
        (t, v) ∈ (runCached (fun i tick => get_historical_data (provider i tick)) reqs).1 →
        (t, w) ∈ (runCached (fun i tick => get_historical_data (provider i tick)) reqs).1 →
        v = w) ∧
    ((runCached (fun i tick => get_current_price (provider1d i tick)) reqs1d).2.providerCalls.Nodup ∧
      ∀ t v w,
        (t, v) ∈ (runCached (fun i tick => get_current_price (provider1d i tick)) reqs1d).1 →
        (t, w) ∈ (runCached (fun i tick => get_current_price (provider1d i tick)) reqs1d).1 →
        v = w) :=
  ⟨runCached_spec _ reqs, runCached_spec _ reqs1d⟩

/-- C8 witness: the same ticker requested twice against a failing provider —
one provider query is logged and both requests get the same answer. -/
theorem cache_memoizes_per_ticker_witness :
    (runCached (fun _ _ => get_historical_data (Except.error "boom"))
      ["AAPL", "AAPL"]).2.providerCalls.Nodup ∧
    (none : Option HistData) = none := by
  have h := cache_memoizes_per_ticker (fun _ _ => Except.error "boom")
    (fun _ _ => Except.error "boom") ["AAPL", "AAPL"] ["AAPL"]
  refine ⟨h.1.1, h.1.2 "AAPL" none none ?_ ?_⟩ <;>
    simp [runCached, runCachedAux, cachedFetch, get_historical_data, lookupTicker]

end Derivio
